import Mathlib

/-!
Verification of the batching input stage
(`src/internal/component/input/batcher/batcher.go`).

The stage wraps an upstream input with a batch policy: records are
accumulated into a working batch, flushed downstream as a single
transaction, and the downstream result is fanned back out to every
upstream transaction that contributed to the batch.

The embedding below follows the Go source line by line.  The loop is a
single thread of control whose blocking select statements are resolved
by an explicit event list (the oracle): each event names the select
branch that fired, which is exactly the nondeterminism the Go runtime
resolves.  The collaborator packages `internal/batch/policy`,
`internal/shutdown` and `internal/transaction` are not part of the
source tree under verification, so their definitions are modelled from
the specification document and marked as such.
-/

namespace Batcher

/-- A message part (one record payload), identified abstractly. -/
abbrev Part := Nat

/-- An upstream transaction as read from `m.child.TransactionChan()`:
a payload of message parts plus an identifier for its single-use
acknowledgment sink (`tran.Ack`). -/
structure GoTransaction where
  payload : List Part
  ackId : Nat
deriving DecidableEq, Repr

/-- Modelled from the spec: `transaction.Tracked` (package
`internal/transaction`, not under src/) pairs the payload with the
original acknowledgment sink, retained until the contributing batch is
acknowledged (`transaction.NewTracked(tran.Payload, tran.Ack)`). -/
structure Tracked where
  payload : List Part
  ackId : Nat
deriving DecidableEq, Repr

/-- Modelled from the spec: the batch accumulator `policy.Batcher`
(package `internal/batch/policy`, not under src/).  The spec's `count`
trigger (ready once the record count reaches the threshold, 0 meaning
disabled) and `period` trigger (wall-clock age of the working batch)
are modelled; `byteSize` and the `check` predicate are not needed by
any claim.  Time is a virtual integer clock. -/
structure PolicyBatcher where
  count : Nat
  period : Option Int
  parts : List Part
  lastFlush : Int
deriving DecidableEq, Repr

/-- Modelled from the spec: `Add` ingests one record into the working
batch and reports whether a configured trigger is met; flush always
drains the entire working batch, so readiness is count-threshold
reached. -/
def PolicyBatcher.add (pb : PolicyBatcher) (p : Part) : PolicyBatcher × Bool :=
  let parts := pb.parts ++ [p]
  ({ pb with parts := parts }, decide (0 < pb.count) && decide (pb.count ≤ parts.length))

/-- Modelled from the spec: `UntilNext` returns the time remaining
until the period trigger fires, negative if no periodic trigger is
configured.  The period timer restarts at each flush. -/
def PolicyBatcher.untilNext (pb : PolicyBatcher) (now : Int) : Int :=
  match pb.period with
  | none => -1
  | some p => pb.lastFlush + p - now

/-- Modelled from the spec: `Flush` atomically extracts and clears the
working batch (empty yields nothing), restarting the period timer. -/
def PolicyBatcher.flush (pb : PolicyBatcher) (now : Int) :
    Option (List Part) × PolicyBatcher :=
  (if pb.parts.isEmpty then none else some pb.parts,
   { pb with parts := [], lastFlush := now })

/-- Modelled from the spec: the `shutdown.Signaller` state (package
`internal/shutdown`, not under src/).  States follow the chain Running,
GracefulRequested, ForcedRequested, Closed, with the direct escalation
Running to ForcedRequested also allowed; a forced request therefore
implies the graceful condition. -/
structure Signaller where
  gracefulReq : Bool
  forcedReq : Bool
  hasClosed : Bool
deriving DecidableEq, Repr

/-- Modelled from the spec: `CloseAtLeisureChan` is readable once a
graceful (or, transitively, forced) close has been requested. -/
def Signaller.atLeisureFired (s : Signaller) : Bool :=
  s.gracefulReq || s.forcedReq

/-- Modelled from the spec: `CloseNowChan` is readable once a forced
close has been requested. -/
def Signaller.closeNowFired (s : Signaller) : Bool :=
  s.forcedReq

/-- Modelled from the spec: the cancellation token of `CloseNowCtx` is
satisfied the instant forced close is requested and, transitively, once
fully closed. -/
def Signaller.ctxCancelled (s : Signaller) : Bool :=
  s.forcedReq || s.hasClosed

/-- How the send select at src lines 83-87 resolved: the downstream
consumer received the transaction, or `CloseNowChan` fired first and
the send was abandoned. -/
inductive SendOutcome
  | delivered
  | abandoned
deriving DecidableEq, Repr

/-- One spawned acknowledgment fan-out task (the goroutine at src lines
90-109), remembering the fan-in set it captured. -/
structure AckTask where
  contributors : List Tracked
deriving DecidableEq, Repr

/-- The loop-owned state of `(*Impl).loop`: the policy batcher, the
armed timed-batch deadline (`nextTimedBatchChan`, with the absolute
virtual time at which it fires), the pending fan-in set, the batches
sent downstream so far (in send order) and the ack tasks spawned so
far (in spawn order). -/
structure LoopState where
  pb : PolicyBatcher
  timedDeadline : Option Int
  pendingTrans : List Tracked
  emitted : List (List Part)
  tasks : List AckTask
deriving DecidableEq, Repr

/-- Src lines 76-111, `flushBatchFn`: flush the policy batcher; if the
batch is empty return immediately; otherwise attempt the downstream
send, which either delivers (spawning an ack task that captures the
current fan-in set, which is then reset) or is abandoned because
`CloseNowChan` fired (the batch is dropped and the fan-in set kept).
Returns the updated state and the batch sent this call, if any. -/
def flushBatchFn (st : LoopState) (now : Int) (send : SendOutcome) :
    LoopState × Option (List Part) :=
  let flushed := st.pb.flush now
  let st1 : LoopState := { st with pb := flushed.2 }
  match flushed.1 with
  | none => (st1, none)
  | some b =>
    match send with
    | .abandoned => (st1, none)
    | .delivered =>
        ({ st1 with
            emitted := st1.emitted ++ [b],
            tasks := st1.tasks ++ [⟨st1.pendingTrans⟩],
            pendingTrans := [] }, some b)

/-- Src lines 148-153: feed every part of an arriving transaction into
`Add`; the flush flag is set if any call reports readiness. -/
def addParts (pb : PolicyBatcher) (ps : List Part) : PolicyBatcher × Bool :=
  ps.foldl
    (fun acc p =>
      let step := acc.1.add p
      (step.1, acc.2 || step.2))
    (pb, false)

/-- Src lines 125-129 (and 68-71 before the loop): when no timed batch
is armed, recompute the deadline from `UntilNext`, arming only when it
is non-negative. -/
def armTimer (st : LoopState) (now : Int) : LoopState :=
  match st.timedDeadline with
  | some _ => st
  | none =>
      let t := st.pb.untilNext now
      if 0 ≤ t then { st with timedDeadline := some (now + t) } else st

/-- Which branch resolved the drain wait at src lines 137-140: the
armed timed-batch channel fired, or `CloseAtLeisureChan` fired. -/
inductive DrainBy
  | deadline
  | leisure
deriving DecidableEq, Repr

/-- One resolution of the main select at src lines 132-160, with the
virtual time at which it resolved and, where a flush may follow, the
outcome of that flush's downstream send. -/
inductive Ev
  | tran (now : Int) (t : GoTransaction) (send : SendOutcome)
  | timerFire (now : Int) (send : SendOutcome)
  | upstreamClosed (now : Int) (drain : DrainBy) (send : SendOutcome)
  | closeAtLeisure (now : Int)
deriving DecidableEq, Repr

/-- One iteration of the main loop (arming at the top, then the select
branch named by the event).  The boolean is true when the iteration
executed a `return`. -/
def loopIter (st : LoopState) : Ev → LoopState × Bool
  | .tran now t send =>
      let st1 := armTimer st now
      let added := addParts st1.pb t.payload
      let st2 : LoopState :=
        { st1 with
            pb := added.1,
            pendingTrans := st1.pendingTrans ++ [⟨t.payload, t.ackId⟩] }
      if added.2 then ((flushBatchFn st2 now send).1, false) else (st2, false)
  | .timerFire now send =>
      let st1 := armTimer st now
      match st1.timedDeadline with
      | none => (st1, false)
      | some _ =>
          ((flushBatchFn { st1 with timedDeadline := none } now send).1, false)
  | .upstreamClosed now drain send =>
      let st1 := armTimer st now
      match st1.timedDeadline, drain with
      | some _, .leisure => (st1, true)
      | _, _ => ((flushBatchFn st1 now send).1, true)
  | .closeAtLeisure now => (armTimer st now, true)

/-- Run the main loop over a list of select resolutions, stopping at
the first iteration that returns. -/
def runLoop (st : LoopState) : List Ev → LoopState
  | [] => st
  | ev :: evs =>
      let step := loopIter st ev
      if step.2 then step.1 else runLoop step.1 evs

/-- Observable shutdown-path events, in the order the deferred blocks
at src lines 48-66 and 113-122 produce them. -/
inductive TraceEv
  | batchSent (b : List Part)
  | finalFlush (sent : Option (List Part))
  | ackWait
  | childClosed
  | batcherClosed
  | outChanClosed
  | shutdownDone
deriving DecidableEq, Repr

/-- The deferred shutdown sequence run on any return from the loop
(deferred blocks run in reverse registration order): the final flush of
src line 116, the wait on `pendingAcks` of src line 120, then the outer
deferred block of src lines 48-66 closing the child and the policy
batcher, closing `messagesOut`, and marking shutdown complete. -/
def shutdownSeq (st : LoopState) (now : Int) (send : SendOutcome) :
    LoopState × List TraceEv :=
  let fl := flushBatchFn st now send
  (fl.1,
   [.finalFlush fl.2, .ackWait, .childClosed, .batcherClosed,
    .outChanClosed, .shutdownDone])

/-- The loop state at stage creation (src lines 32-43 and 68-74): an
empty working batch and fan-in set, with the timed-batch deadline armed
from `UntilNext` at creation time 0. -/
def initStage (count : Nat) (period : Option Int) : LoopState :=
  armTimer
    { pb := { count := count, period := period, parts := [], lastFlush := 0 },
      timedDeadline := none, pendingTrans := [], emitted := [], tasks := [] } 0

/-- A whole run of the stage: the main loop, then the deferred shutdown
sequence, with the observable trace (batches sent in order, then the
shutdown events). -/
def runStage (st0 : LoopState) (evs : List Ev) (finalNow : Int)
    (finalSend : SendOutcome) : LoopState × List TraceEv :=
  let st := runLoop st0 evs
  let fin := shutdownSeq st finalNow finalSend
  (fin.1, st.emitted.map TraceEv.batchSent ++ fin.2)

/-- How the ack fan-out goroutine's select at src lines 93-99 resolved:
`CloseNowChan` fired, the downstream closed the result channel without
a result, or a terminal result arrived (`none` is success, `some e` an
error). -/
inductive DownstreamOutcome
  | closeNow
  | chanClosed
  | result (res : Option Nat)
deriving DecidableEq, Repr

/-- Src lines 101-106: forward the result to each captured contributor
in order; `ok i` says whether the i-th `Ack` call succeeded (false
meaning it was cancelled by the close-now context before the sink
accepted delivery, per the spec of `Tracked.Ack`).  On the first failed
`Ack` the loop returns, so later contributors are not attempted. -/
def forwardFrom (ok : Nat → Bool) (res : Option Nat) :
    Nat → List Tracked → List (Nat × Option Nat)
  | _, [] => []
  | i, c :: cs =>
      if ok i then (c.ackId, res) :: forwardFrom ok res (i + 1) cs
      else []

/-- The whole ack fan-out goroutine (src lines 90-109): the list of
(ack sink, result) deliveries actually made, and whether the deferred
`pendingAcks.Done()` ran (it runs on every path). -/
def runAckTask (outcome : DownstreamOutcome) (ok : Nat → Bool)
    (contributors : List Tracked) : List (Nat × Option Nat) × Bool :=
  match outcome with
  | .closeNow => ([], true)
  | .chanClosed => ([], true)
  | .result res => (forwardFrom ok res 0 contributors, true)

/-- Earliest of two optional instants, propagating the one that exists
(`none` meaning the signal never occurs). -/
def optMin : Option Int → Option Int → Option Int
  | none, b => b
  | a, none => a
  | some x, some y => some (min x y)

/-- Resolve time of the send select at src lines 83-87: the earlier of
the instant the downstream consumer is ready to receive and the instant
`CloseNowChan` fires; it blocks forever only if neither ever occurs. -/
def sendResolveTime (readyAt closeNowAt : Option Int) : Option Int :=
  optMin readyAt closeNowAt

/-- Whether the drain wait at src lines 137-140 is unblocked in a given
signal state, given whether the armed timed-batch deadline has fired:
its two select branches are the timer channel and
`CloseAtLeisureChan`. -/
def drainUnblocked (sig : Signaller) (deadlineFired : Bool) : Bool :=
  deadlineFired || sig.atLeisureFired

/-- One second of the virtual clock, in milliseconds. -/
def oneSecond : Int := 1000

/-- Src lines 186-189: the spawned goroutine sleeps `timeout - 1s`
(firing immediately when that is non-positive, as `time.After` does)
and then requests forced close.  This is the instant, measured from the
call, at which the forced-close signal is raised. -/
def wfcForcedAt (timeout : Int) : Int :=
  max (timeout - oneSecond) 0

/-- Result of `WaitForClose`. -/
inductive CloseResult
  | ok
  | errTimeout
deriving DecidableEq, Repr

/-- Outcome of one call to `WaitForClose` (src lines 185-196), given
the instant at which the stage becomes fully closed (`none` if never):
the returned value (the select at src lines 190-194 yields nil when
`HasClosedChan` fires within the budget, `component.ErrTimeout`
otherwise), the instant the call returns, and the instant the internal
escalation to forced close fires. -/
structure WfcRun where
  res : CloseResult
  returnAt : Int
  forcedAt : Int
deriving DecidableEq, Repr

def waitForClose (timeout : Int) (closedAt : Option Int) : WfcRun :=
  { res :=
      match closedAt with
      | some t => if t ≤ timeout then .ok else .errTimeout
      | none => .errTimeout,
    returnAt :=
      match closedAt with
      | some t => min t timeout
      | none => timeout,
    forcedAt := wfcForcedAt timeout }

/-- Chunking of a list into consecutive groups of k (the last group
possibly shorter); the reference behaviour for count-triggered
batching. -/
def chunkBy (k : Nat) (l : List Part) : List (List Part) :=
  if h : l = [] ∨ k = 0 then [] else l.take k :: chunkBy k (l.drop k)
termination_by l.length
decreasing_by
  simp only [List.length_drop]
  have h1 : l ≠ [] := fun hh => h (Or.inl hh)
  have h2 : k ≠ 0 := fun hh => h (Or.inr hh)
  have := List.length_pos.mpr h1
  omega

/-- The event list for a run in which n single-record transactions
arrive in order and then the upstream closes (all downstream sends
delivered, no close requested). -/
def tranEvents (records : List Part) : List Ev :=
  (records.map fun r => Ev.tran 0 ⟨[r], r⟩ .delivered) ++
    [.upstreamClosed 0 .deadline .delivered]

end Batcher

namespace Batcher

/-- Helper: flushing an empty working batch sends nothing and only
restarts the policy timer. -/
theorem flushBatchFn_empty_parts (st : LoopState) (now : Int) (send : SendOutcome)
    (h : st.pb.parts = []) :
    flushBatchFn st now send
      = ({ st with pb := { st.pb with parts := [], lastFlush := now } }, none) := by
  simp [flushBatchFn, PolicyBatcher.flush, h]

/-- Helper: an abandoned send delivers nothing and leaves the fan-in
set, tasks and emitted history unchanged; only the extracted working
batch is dropped. -/
theorem flushBatchFn_abandoned_eq (st : LoopState) (now : Int) :
    flushBatchFn st now .abandoned
      = ({ st with pb := { st.pb with parts := [], lastFlush := now } }, none) := by
  by_cases h : st.pb.parts.isEmpty <;>
    simp [flushBatchFn, PolicyBatcher.flush, h]

/-- Helper: no flush ever touches the armed timed-batch deadline. -/
theorem flushBatchFn_timedDeadline (st : LoopState) (now : Int) (send : SendOutcome) :
    (flushBatchFn st now send).1.timedDeadline = st.timedDeadline := by
  by_cases h : st.pb.parts.isEmpty <;> cases send <;>
    simp [flushBatchFn, PolicyBatcher.flush, h]

/-- Helper: the forwarding loop delivers to an order-preserving prefix
of the contributors, each paired with the same result. -/
theorem forwardFrom_take_eq (ok : Nat → Bool) (res : Option Nat)
    (cs : List Tracked) : ∀ i : Nat,
    ∃ k, forwardFrom ok res i cs = (cs.take k).map fun c => (c.ackId, res) := by
  induction cs with
  | nil => exact fun i => ⟨0, by simp [forwardFrom]⟩
  | cons c cs ih =>
      intro i
      cases hok : ok i with
      | true =>
          obtain ⟨k, hk⟩ := ih (i + 1)
          exact ⟨k + 1, by simp [forwardFrom, hok, hk]⟩
      | false => exact ⟨0, by simp [forwardFrom, hok]⟩

/-- Helper: when no forward is cancelled the loop delivers to every
contributor. -/
theorem forwardFrom_all_ok (ok : Nat → Bool) (res : Option Nat)
    (cs : List Tracked) : ∀ i : Nat,
    (∀ j, j < cs.length → ok (i + j) = true) →
    forwardFrom ok res i cs = cs.map fun c => (c.ackId, res) := by
  induction cs with
  | nil => intro i _; simp [forwardFrom]
  | cons c cs ih =>
      intro i h
      have h0 : ok i = true := by simpa using h 0 (by simp)
      have h1 : ∀ j, j < cs.length → ok (i + 1 + j) = true := by
        intro j hj
        have := h (j + 1) (by simp; omega)
        rwa [show i + (j + 1) = i + 1 + j by omega] at this
      simp [forwardFrom, h0, ih (i + 1) h1]

/-- C1 counterexample: a success result delivered for a batch with two
contributors, the first forward being cancelled, is forwarded to
nobody: the second contributor receives zero copies instead of exactly
one, so a cancelled forward does prevent the attempt to the remaining
contributors. -/
theorem c1_counterexample :
    ¬ ((runAckTask (.result none) (fun _ => false)
          [(⟨[1], 100⟩ : Tracked), ⟨[2], 200⟩]).1.count (200, none) = 1) := by
  decide

/-- C1 (amended): the fan-out task forwards one copy of the same
terminal result, in order, to each captured contributor up to the
first cancelled forward — an order-preserving prefix, at most one copy
per contributor — and when no forward is cancelled every contributor
receives exactly one copy of that same result. -/
theorem c1_amended_fanout (res : Option Nat) (ok : Nat → Bool)
    (cs : List Tracked) (h : ∀ i, i < cs.length → ok i = true) :
    (runAckTask (.result res) ok cs).1 = cs.map (fun c => (c.ackId, res)) ∧
    (∀ ok' : Nat → Bool, ∃ k,
      (runAckTask (.result res) ok' cs).1
          = (cs.take k).map fun c => (c.ackId, res)) := by
  constructor
  · simpa [runAckTask] using forwardFrom_all_ok ok res cs 0 (by simpa using h)
  · intro ok'
    simpa [runAckTask] using forwardFrom_take_eq ok' res cs 0

/-- C1 witness: with both forwards uncancelled, both contributors
receive one copy of the same error result. -/
theorem c1_amended_fanout_witness :
    (runAckTask (.result (some 7)) (fun _ => true)
        [(⟨[1], 100⟩ : Tracked), ⟨[2], 200⟩]).1
      = [(100, some 7), (200, some 7)] := by
  have h := c1_amended_fanout (some 7) (fun _ => true)
      [(⟨[1], 100⟩ : Tracked), ⟨[2], 200⟩] (fun i _ => rfl)
  simpa using h.1

/-- C3: WaitForClose returns nil whenever the stage closes within the
timeout; the internal escalation to forced close fires no later than
the deadline and the call itself returns no later than the deadline;
and a timeout error is reported only when the stage did not close
within the budget even though the escalation had fired inside it. -/
theorem c3_wait_for_close (timeout : Int) (closedAt : Option Int)
    (h : 0 ≤ timeout) :
    (∀ t, closedAt = some t → t ≤ timeout →
        (waitForClose timeout closedAt).res = .ok) ∧
    (waitForClose timeout closedAt).returnAt ≤ timeout ∧
    (waitForClose timeout closedAt).forcedAt ≤ timeout ∧
    ((waitForClose timeout closedAt).res = .errTimeout →
        ∀ t, closedAt = some t → timeout < t) := by
  refine ⟨?_, ?_, ?_, ?_⟩
  · intro t ht hle
    simp [waitForClose, ht, hle]
  · cases closedAt with
    | none => simp [waitForClose]
    | some t => simp [waitForClose]
  · simp [waitForClose, wfcForcedAt, oneSecond]
    omega
  · intro hres t ht
    subst ht
    by_contra hlt
    simp [waitForClose, Int.not_lt.mp hlt] at hres

/-- C3 witness: a stage closing at 1500 inside a 2000 budget yields
nil. -/
theorem c3_wait_for_close_witness :
    (waitForClose 2000 (some 1500)).res = .ok := by
  exact (c3_wait_for_close 2000 (some 1500) (by norm_num)).1 1500 rfl (by norm_num)

/-- C9: the escalation goroutine raises forced close at timeout minus
one second — immediately when that is non-positive, so budgets of at
most one second get no graceful-only window — and the escalation
instant depends only on the timeout, never on the progress of graceful
closure. -/
theorem c9_unconditional_escalation (timeout : Int) :
    (timeout ≤ oneSecond → wfcForcedAt timeout = 0) ∧
    (oneSecond ≤ timeout → wfcForcedAt timeout = timeout - oneSecond) ∧
    (∀ c c' : Option Int,
      (waitForClose timeout c).forcedAt = (waitForClose timeout c').forcedAt) := by
  refine ⟨?_, ?_, fun c c' => rfl⟩
  · intro h
    simp only [wfcForcedAt, oneSecond] at *
    omega
  · intro h
    simp only [wfcForcedAt, oneSecond] at *
    omega

/-- C9 witness: a 500ms budget escalates immediately; a 1500ms budget
escalates at 500ms. -/
theorem c9_unconditional_escalation_witness :
    wfcForcedAt 500 = 0 ∧ wfcForcedAt 1500 = 500 := by
  exact ⟨(c9_unconditional_escalation 500).1 (by norm_num [oneSecond]),
         (c9_unconditional_escalation 1500).2.1 (by norm_num [oneSecond])⟩

/-- C5: the downstream send select also waits on the forced-close
channel, so once forced close is signalled at some instant the send
resolves no later than that instant for every downstream readiness
(including never-ready); an abandoned send completes without
delivering, rather than blocking shutdown. -/
theorem c5_send_bounded_by_forced_close :
    (∀ (readyAt : Option Int) (tf : Int),
      ∃ tr, sendResolveTime readyAt (some tf) = some tr ∧ tr ≤ tf) ∧
    (∀ (st : LoopState) (now : Int), (flushBatchFn st now .abandoned).2 = none) := by
  constructor
  · intro readyAt tf
    cases readyAt with
    | none => exact ⟨tf, rfl, le_refl _⟩
    | some x => exact ⟨min x tf, rfl, min_le_right _ _⟩
  · intro st now
    rw [flushBatchFn_abandoned_eq]

/-- C4: a send interrupted by forced close delivers nothing and spawns
no ack task, leaving its contributors without any forwarded terminal
result; an ack wait interrupted by forced close likewise forwards
nothing while still completing; and the deferred shutdown sequence
still runs to completion in order, ending fully closed. -/
theorem c4_forced_close_no_result_still_closes
    (st : LoopState) (now now2 : Int) (ds : List Tracked)
    (ok : Nat → Bool) (send2 : SendOutcome) :
    (flushBatchFn st now .abandoned).2 = none ∧
    (flushBatchFn st now .abandoned).1.tasks = st.tasks ∧
    (flushBatchFn st now .abandoned).1.pendingTrans = st.pendingTrans ∧
    (flushBatchFn st now .abandoned).1.emitted = st.emitted ∧
    runAckTask .closeNow ok ds = ([], true) ∧
    (shutdownSeq (flushBatchFn st now .abandoned).1 now2 send2).2
      = [.finalFlush none, .ackWait, .childClosed, .batcherClosed,
         .outChanClosed, .shutdownDone] := by
  rw [flushBatchFn_abandoned_eq]
  refine ⟨rfl, rfl, rfl, rfl, rfl, ?_⟩
  rw [shutdownSeq, flushBatchFn_empty_parts _ _ _ rfl]

/-- C10: when the downstream closes the result channel without ever
delivering a result, the ack task forwards no terminal result to any
contributor — the closed channel is treated neither as a success nor as
a failure — and the task still completes, so its completion is counted
toward the pending-ack wait. -/
theorem c10_closed_result_chan (ok : Nat → Bool) (cs : List Tracked) :
    runAckTask .chanClosed ok cs = ([], true) ∧
    (∀ c ∈ cs,
      (runAckTask .chanClosed ok cs).1.count (c.ackId, (none : Option Nat)) = 0 ∧
      ∀ e : Nat, (runAckTask .chanClosed ok cs).1.count (c.ackId, some e) = 0) := by
  refine ⟨rfl, ?_⟩
  intro c _
  simp [runAckTask]

/-- C7 counterexample: the drain wait on upstream exhaustion is also
unblocked by a merely graceful close request: with graceful requested,
forced not requested and the armed deadline not yet fired, the wait
proceeds, contradicting the reading that only the deadline or forced
close unblocks it. -/
theorem c7_counterexample :
    ¬ (∀ (sig : Signaller) (d : Bool),
        drainUnblocked sig d = (d || sig.closeNowFired)) := by
  intro hcl
  have h := hcl ⟨true, false, false⟩ false
  simp [drainUnblocked, Signaller.atLeisureFired, Signaller.closeNowFired] at h

/-- C7 (amended): on upstream exhaustion with a periodic deadline still
armed, the stage waits for that deadline or a close request — graceful
or forced, a forced request also unblocking the wait since it implies
the graceful condition — and in every case the loop then returns, so
the deferred final flush still runs: the armed trigger is honored
rather than dropped. -/
theorem c7_amended_drain (sig : Signaller) (d : Bool) (st : LoopState)
    (now fn : Int) (dr : DrainBy) (send fs : SendOutcome) :
    (drainUnblocked sig d = (d || (sig.gracefulReq || sig.forcedReq))) ∧
    (sig.forcedReq = true → drainUnblocked sig d = true) ∧
    ((loopIter st (.upstreamClosed now dr send)).2 = true) ∧
    ((shutdownSeq st fn fs).2.head?
        = some (.finalFlush (flushBatchFn st fn fs).2)) := by
  refine ⟨rfl, ?_, ?_, rfl⟩
  · intro h
    simp [drainUnblocked, Signaller.atLeisureFired, h]
  · cases h : (armTimer st now).timedDeadline <;> cases dr <;>
      simp [loopIter, h]

/-- C7 witness: a forced-only close request unblocks the drain wait
even before the deadline fires. -/
theorem c7_amended_drain_witness :
    drainUnblocked ⟨false, true, false⟩ false = true := by
  exact (c7_amended_drain ⟨false, true, false⟩ false (initStage 1 none)
      0 0 .deadline .delivered .delivered).2.1 rfl

/-- C6 counterexample: with count 1 and period 10, the deadline armed
at creation fires at absolute time 10; a count-triggered flush at time
3 emits its batch yet leaves the armed deadline at 10, although
UntilNext would now yield a fresh deadline of 13 — the periodic
deadline is not recomputed after that flush, so the period timer does
not restart from zero. -/
theorem c6_counterexample :
    ((runLoop (initStage 1 (some 10)) [.tran 3 ⟨[5], 0⟩ .delivered]).emitted
        = [[5]]) ∧
    ((runLoop (initStage 1 (some 10)) [.tran 3 ⟨[5], 0⟩ .delivered]).timedDeadline
        = some 10) ∧
    ((runLoop (initStage 1 (some 10)) [.tran 3 ⟨[5], 0⟩ .delivered]).pb.untilNext 3
        = 10) ∧
    ((runLoop (initStage 1 (some 10)) [.tran 3 ⟨[5], 0⟩ .delivered]).timedDeadline
        ≠ some (3 + (runLoop (initStage 1 (some 10))
            [.tran 3 ⟨[5], 0⟩ .delivered]).pb.untilNext 3)) := by
  decide

/-- C6 (amended): the policy's UntilNext strictly decreases as time
passes and restarts from the full period at every flush, but the stage
re-arms its periodic deadline only when none is armed: a
period-triggered flush clears the armed deadline (recomputed at the top
of the next iteration), while a flush triggered by an arriving
transaction leaves a previously armed deadline unchanged. -/
theorem c6_amended_rearm (st : LoopState) (d : Int) (n1 n2 n3 : Int)
    (t : GoTransaction) (send : SendOutcome) (p : Int)
    (hd : st.timedDeadline = some d) :
    ((loopIter st (.tran n1 t send)).1.timedDeadline = some d) ∧
    ((loopIter st (.timerFire n2 send)).1.timedDeadline = none) ∧
    (st.pb.period = some p → (st.pb.flush n3).2.untilNext n3 = p) ∧
    (st.pb.period = some p →
      ∀ m m' : Int, m < m' → st.pb.untilNext m' < st.pb.untilNext m) := by
  refine ⟨?_, ?_, ?_, ?_⟩
  · have harm : armTimer st n1 = st := by simp [armTimer, hd]
    simp only [loopIter, harm]
    split
    · rw [flushBatchFn_timedDeadline]
      exact hd
    · exact hd
  · have harm : armTimer st n2 = st := by simp [armTimer, hd]
    simp only [loopIter, harm, hd]
    rw [flushBatchFn_timedDeadline]
  · intro hp
    simp [PolicyBatcher.flush, PolicyBatcher.untilNext, hp]
  · intro hp m m' hm
    simp [PolicyBatcher.untilNext, hp]
    omega

/-- C6 witness: from the armed initial state, a transaction-triggered
flush keeps the old deadline while a timer fire clears it. -/
theorem c6_amended_rearm_witness :
    ((loopIter (initStage 1 (some 10)) (.tran 3 ⟨[5], 0⟩ .delivered)).1.timedDeadline
        = some 10) ∧
    ((loopIter (initStage 1 (some 10)) (.timerFire 10 .delivered)).1.timedDeadline
        = none) ∧
    ((initStage 1 (some 10)).pb.flush 3).2.untilNext 3 = 10 := by
  have h := c6_amended_rearm (initStage 1 (some 10)) 10 3 10 3 ⟨[5], 0⟩
      .delivered 10 (by decide)
  exact ⟨h.1, h.2.1, h.2.2.1 (by decide)⟩

/-- C8: on any termination of the main loop the deferred shutdown
sequence runs in order — the final flush (draining the residual batch
even though no trigger marked it ready, and propagating it downstream
exactly like a normal flush), then the wait for outstanding ack tasks,
then closing the outbound channel, and only then fully closed. -/
theorem c8_shutdown_order (st0 : LoopState) (evs : List Ev) (fn : Int)
    (hres : (runLoop st0 evs).pb.parts ≠ []) :
    (∀ fs, (runStage st0 evs fn fs).2
        = (runLoop st0 evs).emitted.map TraceEv.batchSent ++
          [.finalFlush (flushBatchFn (runLoop st0 evs) fn fs).2,
           .ackWait, .childClosed, .batcherClosed, .outChanClosed,
           .shutdownDone]) ∧
    (flushBatchFn (runLoop st0 evs) fn .delivered).2
        = some (runLoop st0 evs).pb.parts ∧
    (runStage st0 evs fn .delivered).1.emitted
        = (runLoop st0 evs).emitted ++ [(runLoop st0 evs).pb.parts] := by
  have hflush : flushBatchFn (runLoop st0 evs) fn .delivered
      = ({ runLoop st0 evs with
            pb := { (runLoop st0 evs).pb with parts := [], lastFlush := fn },
            emitted := (runLoop st0 evs).emitted ++ [(runLoop st0 evs).pb.parts],
            tasks := (runLoop st0 evs).tasks ++ [⟨(runLoop st0 evs).pendingTrans⟩],
            pendingTrans := [] }, some (runLoop st0 evs).pb.parts) := by
    simp [flushBatchFn, PolicyBatcher.flush, List.isEmpty_iff, hres]
  refine ⟨fun fs => rfl, ?_, ?_⟩
  · rw [hflush]
  · simp [runStage, shutdownSeq, hflush]

/-- C8 witness: a loop left holding the residual record 7 flushes it in
the final flush, then waits for acks, closes the outbound channel and
completes shutdown, in that order. -/
theorem c8_shutdown_order_witness :
    (runStage (initStage 3 none) [.tran 0 ⟨[7], 7⟩ .delivered] 0 .delivered).2
      = [TraceEv.finalFlush (some [7]), .ackWait, .childClosed, .batcherClosed,
         .outChanClosed, .shutdownDone] := by
  have h := c8_shutdown_order (initStage 3 none) [.tran 0 ⟨[7], 7⟩ .delivered] 0
      (by decide)
  rw [h.1 .delivered, h.2.1]
  decide

end Batcher

namespace Batcher

/-- Helper: chunking the empty list yields no chunks. -/
theorem chunkBy_eq_nil (k : Nat) : chunkBy k [] = [] := by
  rw [chunkBy]
  simp

/-- Helper: one unfolding of chunking for a nonempty list and nonzero
width. -/
theorem chunkBy_eq_cons (k : Nat) (l : List Part) (hk : k ≠ 0) (hl : l ≠ []) :
    chunkBy k l = l.take k :: chunkBy k (l.drop k) := by
  rw [chunkBy, dif_neg (by simp [hk, hl])]

/-- Helper: the chunks concatenate back to the original list, in
order. -/
theorem chunkBy_flatten (k : Nat) (hk : k ≠ 0) (l : List Part) :
    (chunkBy k l).flatten = l := by
  suffices hfuel : ∀ (n : Nat) (l : List Part), l.length ≤ n →
      (chunkBy k l).flatten = l from hfuel l.length l (le_refl _)
  intro n
  induction n with
  | zero =>
      intro l hl
      have hnil : l = [] := List.length_eq_zero.mp (Nat.le_zero.mp hl)
      simp [hnil, chunkBy_eq_nil]
  | succ n ih =>
      intro l hl
      by_cases hnil : l = []
      · simp [hnil, chunkBy_eq_nil]
      · have hlen : 0 < l.length := List.length_pos.mpr hnil
        have hdrop : (l.drop k).length ≤ n := by
          rw [List.length_drop]
          omega
        rw [chunkBy_eq_cons k l hk hnil, List.flatten_cons, ih (l.drop k) hdrop,
          List.take_append_drop]

/-- Helper: the number of chunks is the ceiling of the length over the
width. -/
theorem chunkBy_length (k : Nat) (hk : k ≠ 0) (l : List Part) :
    (chunkBy k l).length = (l.length + k - 1) / k := by
  suffices hfuel : ∀ (n : Nat) (l : List Part), l.length ≤ n →
      (chunkBy k l).length = (l.length + k - 1) / k from hfuel l.length l (le_refl _)
  intro n
  induction n with
  | zero =>
      intro l hl
      have hnil : l = [] := List.length_eq_zero.mp (Nat.le_zero.mp hl)
      subst hnil
      rw [chunkBy_eq_nil]
      simp only [List.length_nil, Nat.zero_add]
      exact (Nat.div_eq_of_lt (by omega)).symm
  | succ n ih =>
      intro l hl
      by_cases hnil : l = []
      · subst hnil
        rw [chunkBy_eq_nil]
        simp only [List.length_nil, Nat.zero_add]
        exact (Nat.div_eq_of_lt (by omega)).symm
      · have hN : 0 < l.length := List.length_pos.mpr hnil
        have hdrop : (l.drop k).length ≤ n := by
          rw [List.length_drop]
          omega
        rw [chunkBy_eq_cons k l hk hnil, List.length_cons, ih (l.drop k) hdrop,
          List.length_drop]
        rcases Nat.lt_or_ge k l.length with hcase | hcase
        · have h1 : l.length - k + k - 1 = l.length - 1 := by omega
          have h2 : l.length + k - 1 = (l.length - 1) + k := by omega
          rw [h1, h2, Nat.add_div_right _ (Nat.pos_of_ne_zero hk)]
        · have h1 : l.length - k + k - 1 = k - 1 := by omega
          have h2 : l.length + k - 1 = (l.length - 1) + k := by omega
          rw [h1, h2, Nat.add_div_right _ (Nat.pos_of_ne_zero hk),
            Nat.div_eq_of_lt (by omega), Nat.div_eq_of_lt (by omega)]

/-- Helper: every chunk except possibly the last has exactly the
configured width. -/
theorem chunkBy_dropLast (k : Nat) (hk : k ≠ 0) (l : List Part) :
    ∀ b ∈ (chunkBy k l).dropLast, b.length = k := by
  suffices hfuel : ∀ (n : Nat) (l : List Part), l.length ≤ n →
      ∀ b ∈ (chunkBy k l).dropLast, b.length = k from hfuel l.length l (le_refl _)
  intro n
  induction n with
  | zero =>
      intro l hl b hb
      have hnil : l = [] := List.length_eq_zero.mp (Nat.le_zero.mp hl)
      simp [hnil, chunkBy_eq_nil] at hb
  | succ n ih =>
      intro l hl b hb
      by_cases hnil : l = []
      · simp [hnil, chunkBy_eq_nil] at hb
      · have hN : 0 < l.length := List.length_pos.mpr hnil
        rw [chunkBy_eq_cons k l hk hnil] at hb
        by_cases hd : l.drop k = []
        · simp [hd, chunkBy_eq_nil] at hb
        · have hne2 : chunkBy k (l.drop k) ≠ [] := by
            rw [chunkBy_eq_cons k (l.drop k) hk hd]
            simp
          rw [List.dropLast_cons_of_ne_nil hne2] at hb
          have hgt : 0 < (l.drop k).length := List.length_pos.mpr hd
          rw [List.length_drop] at hgt
          rcases List.mem_cons.mp hb with h1 | h2
          · subst h1
            rw [List.length_take]
            omega
          · have hdrop : (l.drop k).length ≤ n := by
              rw [List.length_drop]
              omega
            exact ih (l.drop k) hdrop b h2

/-- Helper: the last chunk carries the length's remainder modulo the
width, or a full chunk when the width divides the length. -/
theorem chunkBy_getLastD (k : Nat) (hk : k ≠ 0) (l : List Part) (hl : l ≠ []) :
    ((chunkBy k l).getLastD []).length
      = if l.length % k = 0 then k else l.length % k := by
  suffices hfuel : ∀ (n : Nat) (l : List Part), l.length ≤ n → l ≠ [] →
      ((chunkBy k l).getLastD []).length
        = if l.length % k = 0 then k else l.length % k from
    hfuel l.length l (le_refl _) hl
  intro n
  induction n with
  | zero =>
      intro l hlen hne
      exact absurd (List.length_eq_zero.mp (Nat.le_zero.mp hlen)) hne
  | succ n ih =>
      intro l hlen hne
      have hN : 0 < l.length := List.length_pos.mpr hne
      rw [chunkBy_eq_cons k l hk hne]
      by_cases hd : l.drop k = []
      · have hNk : l.length ≤ k := by
          have := congrArg List.length hd
          rw [List.length_drop] at this
          simp at this
          omega
        rw [hd, chunkBy_eq_nil]
        simp only [List.getLastD_cons, List.getLastD_nil]
        rw [List.length_take]
        by_cases heq : l.length = k
        · simp [heq, Nat.mod_self]
        · have hlt : l.length < k := by omega
          rw [Nat.mod_eq_of_lt hlt, if_neg (by omega)]
          omega
      · have hne2 : chunkBy k (l.drop k) ≠ [] := by
          rw [chunkBy_eq_cons k (l.drop k) hk hd]
          simp
        have hgt : 0 < (l.drop k).length := List.length_pos.mpr hd
        rw [List.length_drop] at hgt
        rw [List.getLastD_cons]
        have hswap : (chunkBy k (l.drop k)).getLastD (l.take k)
            = (chunkBy k (l.drop k)).getLastD [] := by
          cases hcc : chunkBy k (l.drop k) with
          | nil => exact absurd hcc hne2
          | cons a t => simp only [List.getLastD_cons]
        have hdrop : (l.drop k).length ≤ n := by
          rw [List.length_drop]
          omega
        rw [hswap, ih (l.drop k) hdrop hd, List.length_drop]
        have hmod : (l.length - k) % k = l.length % k := by
          conv_rhs => rw [show l.length = (l.length - k) + k by omega]
          rw [Nat.add_mod_right]
        rw [hmod]

end Batcher

namespace Batcher

/-- Helper: a delivered flush of a nonempty working batch emits it,
captures the fan-in set into a new ack task and resets both. -/
theorem flushBatchFn_delivered (st : LoopState) (now : Int)
    (h : st.pb.parts ≠ []) :
    flushBatchFn st now .delivered
      = ({ st with
            pb := { st.pb with parts := [], lastFlush := now },
            emitted := st.emitted ++ [st.pb.parts],
            tasks := st.tasks ++ [⟨st.pendingTrans⟩],
            pendingTrans := [] }, some st.pb.parts) := by
  simp [flushBatchFn, PolicyBatcher.flush, List.isEmpty_iff, h]

/-- Helper: with no period configured and no deadline armed, the timer
arming step does nothing. -/
theorem armTimer_noPeriod (st : LoopState) (now : Int)
    (hp : st.pb.period = none) (ht : st.timedDeadline = none) :
    armTimer st now = st := by
  unfold armTimer
  rw [ht]
  norm_num [PolicyBatcher.untilNext, hp]

/-- Helper: a single-record transaction arriving when the count trigger
is newly met appends the record and its tracked transaction, then
flushes. -/
theorem loopIter_tran_single_ready (st : LoopState) (r aid : Nat) (now : Int)
    (send : SendOutcome)
    (hp : st.pb.period = none) (ht : st.timedDeadline = none)
    (hc : 0 < st.pb.count) (hready : st.pb.count ≤ st.pb.parts.length + 1) :
    loopIter st (.tran now ⟨[r], aid⟩ send)
      = ((flushBatchFn
            { st with
                pb := { st.pb with parts := st.pb.parts ++ [r] },
                pendingTrans := st.pendingTrans ++ [⟨[r], aid⟩] }
            now send).1, false) := by
  simp only [loopIter, armTimer_noPeriod st now hp ht]
  simp [addParts, PolicyBatcher.add, hc, hready]

/-- Helper: a single-record transaction arriving while the count
trigger is not yet met only appends the record and its tracked
transaction. -/
theorem loopIter_tran_single_notReady (st : LoopState) (r aid : Nat) (now : Int)
    (send : SendOutcome)
    (hp : st.pb.period = none) (ht : st.timedDeadline = none)
    (hnot : ¬ st.pb.count ≤ st.pb.parts.length + 1) :
    loopIter st (.tran now ⟨[r], aid⟩ send)
      = ({ st with
            pb := { st.pb with parts := st.pb.parts ++ [r] },
            pendingTrans := st.pendingTrans ++ [⟨[r], aid⟩] }, false) := by
  simp only [loopIter, armTimer_noPeriod st now hp ht]
  simp [addParts, PolicyBatcher.add, hnot]

/-- Helper: with no period configured, the initial arming leaves the
creation state untouched. -/
theorem initStage_noPeriod (K : Nat) :
    initStage K none
      = { pb := { count := K, period := none, parts := [], lastFlush := 0 },
          timedDeadline := none, pendingTrans := [], emitted := [], tasks := [] } := by
  unfold initStage
  norm_num [armTimer, PolicyBatcher.untilNext]

/-- Helper: with a pure count trigger, running the loop over
single-record transactions followed by upstream closure emits exactly
the consecutive chunks of the arrival order appended to the prior
history, and leaves an empty working batch. -/
theorem runLoop_count (K : Nat) (hK : 0 < K) :
    ∀ (records : List Part) (st : LoopState),
      st.pb.period = none → st.timedDeadline = none → st.pb.count = K →
      st.pb.parts.length < K →
      (runLoop st (tranEvents records)).emitted
          = st.emitted ++ chunkBy K (st.pb.parts ++ records) ∧
      (runLoop st (tranEvents records)).pb.parts = [] := by
  intro records
  induction records with
  | nil =>
      intro st hp ht hc hlen
      simp only [tranEvents, List.map_nil, List.nil_append, List.append_nil]
      rw [runLoop]
      simp only [loopIter, armTimer_noPeriod st 0 hp ht, ht]
      by_cases hparts : st.pb.parts = []
      · rw [flushBatchFn_empty_parts st 0 .delivered hparts]
        simp [hparts, chunkBy_eq_nil]
      · rw [flushBatchFn_delivered st 0 hparts]
        have hchunk : chunkBy K st.pb.parts = [st.pb.parts] := by
          rw [chunkBy_eq_cons K _ (by omega) hparts,
            List.take_of_length_le (le_of_lt hlen),
            List.drop_eq_nil_of_le (le_of_lt hlen), chunkBy_eq_nil]
        simp [hchunk]
  | cons r rest ih =>
      intro st hp ht hc hlen
      simp only [tranEvents, List.map_cons, List.cons_append]
      rw [runLoop]
      by_cases hready : K ≤ st.pb.parts.length + 1
      · have heq : st.pb.parts.length + 1 = K := by omega
        rw [loopIter_tran_single_ready st r r 0 .delivered hp ht (by omega) (by omega)]
        have hne : st.pb.parts ++ [r] ≠ [] := by simp
        rw [flushBatchFn_delivered _ 0 hne]
        simp only [Bool.false_eq_true, if_false]
        have happ := ih
          { st with
              pb := { st.pb with parts := [], lastFlush := 0 },
              emitted := st.emitted ++ [st.pb.parts ++ [r]],
              tasks := st.tasks ++ [⟨st.pendingTrans ++ [⟨[r], r⟩]⟩],
              pendingTrans := [] }
          (by simp [hp]) (by simp [ht]) (by simp [hc]) (by simp; omega)
        simp only [tranEvents] at happ
        simp only [happ.1, happ.2, true_and]
        have hlen2 : (st.pb.parts ++ [r]).length = K := by
          simp [List.length_append]
          omega
        have hchunk : chunkBy K (st.pb.parts ++ r :: rest)
            = (st.pb.parts ++ [r]) :: chunkBy K rest := by
          have hassoc : st.pb.parts ++ r :: rest = (st.pb.parts ++ [r]) ++ rest := by
            simp
          have hne3 : (st.pb.parts ++ [r]) ++ rest ≠ [] := by
            intro hfalse
            have := congrArg List.length hfalse
            simp at this
          rw [hassoc, chunkBy_eq_cons K _ (by omega) hne3,
            List.take_left' hlen2, List.drop_left' hlen2]
        rw [hchunk]
        simp
      · rw [loopIter_tran_single_notReady st r r 0 .delivered hp ht (by omega)]
        simp only [Bool.false_eq_true, if_false]
        have happ := ih
          { st with
              pb := { st.pb with parts := st.pb.parts ++ [r] },
              pendingTrans := st.pendingTrans ++ [⟨[r], r⟩] }
          (by simp [hp]) (by simp [ht]) (by simp [hc])
          (by simp [List.length_append]; omega)
        simp only [tranEvents] at happ
        simp only [happ.1, happ.2, true_and]
        simp

end Batcher

namespace Batcher

/-- C2: with count threshold K and no period trigger, N single-record
transactions followed by upstream closure are emitted as exactly the
ceiling of N over K batches; every batch but the last holds K records,
the last holds N mod K records (K when K divides N), and the batches
concatenate back to the arrival order; in particular count 3 over the
records 0,1,2,3,4 yields the batches [0,1,2] then [3,4]. -/
theorem c2_count_batching (K : Nat) (records : List Part) (hK : 0 < K) :
    (runStage (initStage K none) (tranEvents records) 0 .delivered).1.emitted
        = chunkBy K records ∧
    (chunkBy K records).flatten = records ∧
    (chunkBy K records).length = (records.length + K - 1) / K ∧
    (∀ b ∈ (chunkBy K records).dropLast, b.length = K) ∧
    (records ≠ [] →
      ((chunkBy K records).getLastD []).length
        = if records.length % K = 0 then K else records.length % K) ∧
    (runStage (initStage 3 none) (tranEvents [0, 1, 2, 3, 4]) 0 .delivered).1.emitted
        = [[0, 1, 2], [3, 4]] := by
  have hk0 : K ≠ 0 := by omega
  have hrun := runLoop_count K hK records (initStage K none)
    (by rw [initStage_noPeriod]) (by rw [initStage_noPeriod])
    (by rw [initStage_noPeriod]) (by rw [initStage_noPeriod]; simpa using hK)
  refine ⟨?_, chunkBy_flatten K hk0 records, chunkBy_length K hk0 records,
    chunkBy_dropLast K hk0 records,
    fun hne => chunkBy_getLastD K hk0 records hne, by decide⟩
  show (shutdownSeq (runLoop (initStage K none) (tranEvents records)) 0
      .delivered).1.emitted = chunkBy K records
  rw [shutdownSeq]
  simp only [flushBatchFn_empty_parts _ 0 .delivered hrun.2]
  rw [hrun.1, initStage_noPeriod]
  simp

/-- C2 witness: count 3 over five records emits the two chunks, whose
last batch has size 2. -/
theorem c2_count_batching_witness :
    (runStage (initStage 3 none) (tranEvents [0, 1, 2, 3, 4]) 0 .delivered).1.emitted
        = chunkBy 3 [0, 1, 2, 3, 4] ∧
    ((chunkBy 3 [0, 1, 2, 3, 4]).getLastD []).length = 2 := by
  have h := c2_count_batching 3 [0, 1, 2, 3, 4] (by norm_num)
  refine ⟨h.1, ?_⟩
  rw [h.2.2.2.2.1 (by decide)]
  norm_num

end Batcher

namespace Batcher

/-- C4 witness: at a concrete state holding the record 9 and one
pending contributor, the abandoned send delivers nothing, spawns no
task and the shutdown sequence still completes. -/
theorem c4_forced_close_no_result_still_closes_witness :
    (flushBatchFn ⟨⟨2, none, [9], 0⟩, none, [⟨[9], 9⟩], [], []⟩ 0 .abandoned).2 = none ∧
    (flushBatchFn ⟨⟨2, none, [9], 0⟩, none, [⟨[9], 9⟩], [], []⟩ 0 .abandoned).1.pendingTrans
      = [⟨[9], 9⟩] := by
  have h := c4_forced_close_no_result_still_closes
    ⟨⟨2, none, [9], 0⟩, none, [⟨[9], 9⟩], [], []⟩ 0 0 [] (fun _ => true) .delivered
  exact ⟨h.1, h.2.2.1⟩

/-- C5 witness: with a never-ready downstream and forced close at 5,
the send resolves by 5. -/
theorem c5_send_bounded_by_forced_close_witness :
    ∃ tr, sendResolveTime none (some 5) = some tr ∧ tr ≤ 5 := by
  exact c5_send_bounded_by_forced_close.1 none 5

/-- C10 witness: a closed result channel over one contributor forwards
nothing and completes. -/
theorem c10_closed_result_chan_witness :
    runAckTask .chanClosed (fun _ => true) [(⟨[1], 100⟩ : Tracked)] = ([], true) := by
  exact (c10_closed_result_chan (fun _ => true) [⟨[1], 100⟩]).1

end Batcher
